import Mathlib

/-!
Shallow embedding of the core game logic of `qs-learn-box` (src/main.rs,
src/consts.rs, src/util.rs).  Rust `f32` arithmetic is modelled exactly over
`ℚ`; real-time quantities (`Instant`, elapsed clocks) are modelled as explicit
rational parameters; the random draws of `Obstacle::spawn` are passed as
explicit arguments constrained to the ranges the RNG produces.
-/

namespace QsLearnBox

/-! Constants from `src/consts.rs` (`game` module). -/

def FIELD_EDGE_LENGTH : ℚ := 500

def PLAYER_SPEED : ℚ := 5

def PLAYER_SLOWMO_FACTOR : ℚ := 11/5

def COLLECTOR_EDGE_LENGTH : ℚ := 80

def OBSTACLE_WARNING_DRAW_TIME : ℕ := 20

def OBSTACLE_WARNING_FINISH_WAIT_TIME : ℕ := 20

def OBSTACLE_PRE_SPAWN_WARN_TIME : ℕ :=
  OBSTACLE_WARNING_DRAW_TIME + OBSTACLE_WARNING_FINISH_WAIT_TIME

def OBSTACLE_HIDE_DELAY : ℕ := 20

def OBSTACLE_WARNING_MOVE_SPEED : ℚ :=
  FIELD_EDGE_LENGTH / (OBSTACLE_WARNING_DRAW_TIME : ℚ)

def SPAWN_RATE_FACTOR : ℚ := 6

def SPAWN_RATE_SUBTRACT : ℚ := 6/5

/-- Truncation of a rational towards zero, as Rust float-to-int style
truncation used by the float remainder operator. -/
def ratTrunc (a : ℚ) : ℤ := if 0 ≤ a then ⌊a⌋ else ⌈a⌉

/-- Rust `%` on floats: `a - b * trunc (a / b)` (remainder of truncated
division, same sign as the dividend). -/
def fRem (a b : ℚ) : ℚ := a - b * (ratTrunc (a / b) : ℚ)

/-- Quicksilver `Rectangle`: position `(x, y)` and size `(w, h)`, axis
aligned, `+y` down. -/
structure Rect where
  x : ℚ
  y : ℚ
  w : ℚ
  h : ℚ
deriving DecidableEq, Repr

/-- Quicksilver `Rectangle::overlaps_rectangle`: strict axis-aligned overlap
test. -/
def Rect.overlaps (a b : Rect) : Bool :=
  decide (a.x < b.x + b.w) && decide (a.x + a.w > b.x) &&
  decide (a.y < b.y + b.h) && decide (a.y + a.h > b.y)

/-- Quicksilver `Rectangle::new_sized(size).with_center(c)`: a rectangle of
the given size whose center is at `c`. -/
def Rect.sizedWithCenter (size cx cy : ℚ) : Rect :=
  { x := cx - size / 2, y := cy - size / 2, w := size, h := size }

/-- Center of a rectangle (Quicksilver `Rectangle::center`). -/
def Rect.centerX (r : Rect) : ℚ := r.x + r.w / 2

def Rect.centerY (r : Rect) : ℚ := r.y + r.h / 2

inductive Direction where
  | North
  | East
  | South
  | West
deriving DecidableEq, Repr

/-- The game's own error type (`src/error.rs`); the Quicksilver variant is
external and never produced by the embedded core. -/
inductive Error where
  | ObstacleRixelOutOfBounds (pos : ℚ)
deriving DecidableEq, Repr

structure Obstacle where
  rixel : ℚ
  speed : ℚ
  width : ℚ
  length : ℚ
  lifetime : ℚ
deriving DecidableEq, Repr

/-- Obstacle::spawn with the three random draws passed explicitly:
`side` is `rng.gen_range(0, 4)`, `width` is `rng.gen_range(6.0, 14.0)`,
and `off` is `rng.gen_range(width / 2, FIELD_EDGE_LENGTH - width / 2)`. -/
def Obstacle.spawn (side : ℕ) (width off : ℚ) : Obstacle :=
  { rixel := FIELD_EDGE_LENGTH * (side : ℚ) + off
    speed := 3
    width := width
    length := 300
    lifetime := -(OBSTACLE_PRE_SPAWN_WARN_TIME : ℚ) }

/-- Obstacle::rixels_to_next_corner. -/
def rixels_to_next_corner (rixel : ℚ) : ℚ :=
  FIELD_EDGE_LENGTH - fRem rixel FIELD_EDGE_LENGTH

/-- Obstacle::rixel_to_direction. -/
def rixel_to_direction (rixel : ℚ) : Except Error Direction :=
  if rixel > 0 ∧ rixel < FIELD_EDGE_LENGTH then .ok .North
  else if rixel < FIELD_EDGE_LENGTH * 2 then .ok .East
  else if rixel < FIELD_EDGE_LENGTH * 3 then .ok .South
  else if rixel < FIELD_EDGE_LENGTH * 4 then .ok .West
  else .error (.ObstacleRixelOutOfBounds rixel)

/-- Obstacle::positioning_to_rectangle. -/
def positioning_to_rectangle (rixel distance length width : ℚ) :
    Except Error Rect :=
  match rixel_to_direction rixel with
  | .error e => .error e
  | .ok dir =>
    let distance_back := FIELD_EDGE_LENGTH - rixels_to_next_corner rixel
    match dir with
    | .North => .ok { x := rixel - width / 2, y := -length + distance
                      w := width, h := length }
    | .East => .ok { x := FIELD_EDGE_LENGTH - distance
                     y := rixel - FIELD_EDGE_LENGTH - width / 2
                     w := length, h := width }
    | .South => .ok { x := rixel - distance_back * 2 - FIELD_EDGE_LENGTH - width / 2
                      y := FIELD_EDGE_LENGTH - distance
                      w := width, h := length }
    | .West => .ok { x := -length + distance
                     y := FIELD_EDGE_LENGTH * 4 - rixel - width / 2
                     w := length, h := width }

/-- Obstacle::total_lifetime. -/
def Obstacle.total_lifetime (o : Obstacle) : ℚ :=
  (FIELD_EDGE_LENGTH + o.length) / o.speed

/-- The `distance` local of `Obstacle::rectangle`. -/
def Obstacle.travelDistance (o : Obstacle) : ℚ :=
  if o.lifetime * o.speed > FIELD_EDGE_LENGTH then FIELD_EDGE_LENGTH
  else o.lifetime * o.speed

/-- The `length` local of `Obstacle::rectangle`: the currently visible
length of the obstacle as a function of its lifetime. -/
def Obstacle.visibleLength (o : Obstacle) : ℚ :=
  if o.lifetime < 0 ∨ o.lifetime > o.total_lifetime then 0
  else if o.lifetime * o.speed < o.length then o.lifetime * o.speed
  else if o.lifetime * o.speed > FIELD_EDGE_LENGTH then
    o.length - (o.lifetime * o.speed - FIELD_EDGE_LENGTH)
  else o.length

/-- Obstacle::rectangle up to (but not including) the final `unwrap`: the
Rust function panics when this returns an error. -/
def Obstacle.rectangleE (o : Obstacle) : Except Error Rect :=
  positioning_to_rectangle o.rixel o.travelDistance o.visibleLength o.width

/-- Obstacle::opposite. -/
def Obstacle.opposite (o : Obstacle) : ℚ :=
  let to_next_corner := FIELD_EDGE_LENGTH - fRem o.rixel FIELD_EDGE_LENGTH
  fRem (o.rixel + to_next_corner + FIELD_EDGE_LENGTH + to_next_corner)
    (FIELD_EDGE_LENGTH * 4)

/-- Color, reduced to the variants the core logic distinguishes. -/
inductive Color where
  | red
  | other
deriving DecidableEq, Repr

/-- Player (`struct Player`). -/
structure Player where
  rect : Rect
  score : ℕ
  color : Color
deriving DecidableEq, Repr

/-- Player::new. -/
def Player.new : Player :=
  { rect := { x := 0, y := 0, w := 50, h := 50 }, score := 0, color := .red }

/-- Player::collector_rectangle. -/
def Player.collector_rectangle (p : Player) : Rect :=
  Rect.sizedWithCenter COLLECTOR_EDGE_LENGTH p.rect.centerX p.rect.centerY

/-- Countdown (`src/util.rs`), with the wall clock made explicit: `elapsed`
is the ghost value of `start.elapsed()` in seconds (advanced by real time,
outside the model), `duration` the configured duration in seconds. -/
structure Countdown where
  elapsed : ℚ
  duration : ℚ
deriving DecidableEq, Repr

/-- Countdown::new: freshly started, nothing elapsed yet. -/
def Countdown.new (duration : ℚ) : Countdown :=
  { elapsed := 0, duration := duration }

/-- Countdown::is_done: `start.elapsed() > duration`. -/
def Countdown.is_done (c : Countdown) : Bool := decide (c.elapsed > c.duration)

/-- Key-down state of the keys the game reads
(`window.keyboard()[key].is_down()`). -/
structure Keyboard where
  h : Bool
  left : Bool
  j : Bool
  down : Bool
  k : Bool
  up : Bool
  l : Bool
  right : Bool
  lshift : Bool
  escape : Bool
deriving DecidableEq, Repr

/-- GameState, restricted to the gameplay fields; the FPS telemetry and the
spawn-timing bookkeeping (`last_spawned`, `spawn_interval`) are real-time
bookkeeping abstracted into explicit parameters of the update functions. -/
structure GameState where
  obstacles : List Obstacle
  player : Player
  reset_countdown : Option Countdown
  is_running : Bool
deriving DecidableEq, Repr

/-- The movement else-if chain of `GameState::update_handle_input`. -/
def movedRect (kb : Keyboard) (movespeed : ℚ) (p : Rect) : Rect :=
  if kb.h || kb.left then { p with x := p.x - movespeed }
  else if kb.j || kb.down then { p with y := p.y + movespeed }
  else if kb.k || kb.up then { p with y := p.y - movespeed }
  else if kb.l || kb.right then { p with x := p.x + movespeed }
  else p

/-- The "put player back in movement bounds" block of
`GameState::update_handle_input`. -/
def clampToField (p : Rect) : Rect :=
  let p1 :=
    if p.x + p.w > FIELD_EDGE_LENGTH then { p with x := FIELD_EDGE_LENGTH - p.w }
    else if p.x < 0 then { p with x := 0 } else p
  if p1.y + p1.h > FIELD_EDGE_LENGTH then { p1 with y := FIELD_EDGE_LENGTH - p1.h }
  else if p1.y < 0 then { p1 with y := 0 } else p1

/-- GameState::update_handle_input. -/
def GameState.update_handle_input (kb : Keyboard) (s : GameState) : GameState :=
  let movespeed := if kb.lshift then PLAYER_SPEED / PLAYER_SLOWMO_FACTOR
                   else PLAYER_SPEED
  let moved := if s.reset_countdown.isNone then movedRect kb movespeed s.player.rect
               else s.player.rect
  { s with
    player := { s.player with rect := clampToField moved }
    is_running := if kb.escape then false else s.is_running }

/-- Lifetime advance applied to each obstacle by the collision loop. -/
def advanceOb (o : Obstacle) : Obstacle := { o with lifetime := o.lifetime + 1 }

/-- The loop body of `GameState::update_check_collisions`, threading the
score and the countdown through the obstacle list; `none` models the panic
of the `unwrap` inside `Obstacle::rectangle`. -/
def collisionsLoop (p : Player) :
    List Obstacle → ℕ → Option Countdown →
    Option (List Obstacle × ℕ × Option Countdown)
  | [], score, cd => some ([], score, cd)
  | ob :: rest, score, cd =>
    let ob1 := advanceOb ob
    match ob1.rectangleE with
    | .error _ => none
    | .ok r =>
      let acc := if p.rect.overlaps r then (score, some (Countdown.new 2))
                 else if p.collector_rectangle.overlaps r then (score + 1, cd)
                 else (score, cd)
      match collisionsLoop p rest acc.1 acc.2 with
      | none => none
      | some (l, sc, c) => some (ob1 :: l, sc, c)

/-- GameState::update_check_collisions; `none` models a panic of the
`unwrap` inside `Obstacle::rectangle` on an invalid obstacle. -/
def GameState.update_check_collisions (s : GameState) : Option GameState :=
  if s.reset_countdown.isNone then
    match collisionsLoop s.player s.obstacles s.player.score s.reset_countdown with
    | none => none
    | some (obs, sc, cd) =>
      some { s with
             obstacles := obs
             player := { s.player with score := sc }
             reset_countdown := cd }
  else some s

/-- GameState::update_spawn_obstacles, with the real-time spawn condition
(`last_spawned` empty or elapsed beyond `spawn_interval`) passed as the
oracle `doSpawn`, and the random draws of `Obstacle::spawn` explicit. -/
def GameState.update_spawn_obstacles (doSpawn : Bool) (side : ℕ)
    (width off : ℚ) (s : GameState) : GameState :=
  if doSpawn then
    { s with obstacles := s.obstacles ++ [Obstacle.spawn side width off] }
  else s

/-- GameState::update_reset_game. -/
def GameState.update_reset_game (s : GameState) : GameState :=
  match s.reset_countdown with
  | some c =>
    if c.is_done then
      { s with obstacles := [], player := Player.new, reset_countdown := none }
    else s
  | none => s

/-- The retain predicate of `GameState::update_despawn_obstacles`: the
obstacle is kept while its lifetime is below its total lifetime plus the
time for the warning line to recede plus the hide delay. -/
def despawnKeep (ob : Obstacle) : Bool :=
  decide (ob.lifetime <
    ob.total_lifetime + FIELD_EDGE_LENGTH / OBSTACLE_WARNING_MOVE_SPEED
      + (OBSTACLE_HIDE_DELAY : ℚ))

/-- GameState::update_despawn_obstacles: `Vec::retain` keeps the obstacles
satisfying `despawnKeep` in order and bumps the score by 100 for each one
dropped. -/
def GameState.update_despawn_obstacles (s : GameState) : GameState :=
  { s with
    obstacles := s.obstacles.filter despawnKeep
    player := { s.player with
                score := s.player.score
                  + 100 * s.obstacles.countP (fun ob => !(despawnKeep ob)) } }

/-- GameState::obstacle_spawn_interval in exact real arithmetic:
`(SPAWN_RATE_FACTOR / (max 100 score / 100)^(1/3) - SPAWN_RATE_SUBTRACT) * 1000`. -/
noncomputable def spawnIntervalReal (score : ℕ) : ℝ :=
  ((SPAWN_RATE_FACTOR : ℝ) / ((max 100 score : ℕ) / 100 : ℝ) ^ ((1 : ℝ) / 3)
    - (SPAWN_RATE_SUBTRACT : ℝ)) * 1000

/-- Rust `as u64` on a float: saturating truncation towards zero. -/
noncomputable def f32ToU64 (x : ℝ) : ℕ :=
  if x ≤ 0 then 0 else min (⌊x⌋.toNat) (2 ^ 64 - 1)

/-- GameState::obstacle_spawn_interval, returning the millisecond count of
the produced `Duration`. -/
noncomputable def obstacle_spawn_interval (score : ℕ) : ℕ :=
  f32ToU64 (spawnIntervalReal score)

/-- The body of `Obstacle::opposite` as a function of the rixel alone. -/
def oppositeRixel (r : ℚ) : ℚ :=
  let to_next_corner := FIELD_EDGE_LENGTH - fRem r FIELD_EDGE_LENGTH
  fRem (r + to_next_corner + FIELD_EDGE_LENGTH + to_next_corner)
    (FIELD_EDGE_LENGTH * 4)

/-- The side of the playfield indexed by the interval number `k` of the
rixel, `[k L, (k+1) L)`. -/
def sideOfIndex (k : ℕ) : Direction :=
  match k with
  | 0 => .North
  | 1 => .East
  | 2 => .South
  | _ => .West

/-- The coordinate of a rectangle's inward-facing (leading) edge for an
obstacle arriving from the given side: its bottom edge for North, left edge
for East, top edge for South, right edge for West. -/
def leadingEdge (d : Direction) (r : Rect) : ℚ :=
  match d with
  | .North => r.y + r.h
  | .East => r.x
  | .South => r.y
  | .West => r.x + r.w

/-- The coordinate of the perimeter edge an obstacle from the given side
enters through (`y = 0` for North, `x = L` for East, `y = L` for South,
`x = 0` for West). -/
def perimeterEdge (d : Direction) : ℚ :=
  match d with
  | .North => 0
  | .East => FIELD_EDGE_LENGTH
  | .South => FIELD_EDGE_LENGTH
  | .West => 0

/-- The coordinate of the perimeter edge opposite the entry side. -/
def oppositeEdge (d : Direction) : ℚ :=
  match d with
  | .North => FIELD_EDGE_LENGTH
  | .East => 0
  | .South => 0
  | .West => FIELD_EDGE_LENGTH

/-- The `(w, h)` dimension pair a side assigns to a shape of the given
length and width. -/
def rectDims (d : Direction) (length width : ℚ) : ℚ × ℚ :=
  match d with
  | .North => (width, length)
  | .East => (length, width)
  | .South => (width, length)
  | .West => (length, width)

/-- The visible length of an obstacle as a function of a varying lifetime. -/
def visLenAt (o : Obstacle) (t : ℚ) : ℚ :=
  Obstacle.visibleLength { o with lifetime := t }

/-- The obstacle, after this tick's lifetime advance, overlaps the player's
solid rectangle (with a failed rectangle computation counting as no hit;
the loop aborts on that case anyway). -/
def solidHit (p : Player) (ob : Obstacle) : Bool :=
  match (advanceOb ob).rectangleE with
  | .ok r => p.rect.overlaps r
  | .error _ => false

/-- The obstacle, after this tick's lifetime advance, misses the player's
solid rectangle but overlaps the collector rectangle. -/
def collectHit (p : Player) (ob : Obstacle) : Bool :=
  match (advanceOb ob).rectangleE with
  | .ok r => !(p.rect.overlaps r) && p.collector_rectangle.overlaps r
  | .error _ => false

/-! Helper lemmas. -/

lemma ratTrunc_eq_floor {a : ℚ} (h : 0 ≤ a) : ratTrunc a = ⌊a⌋ := if_pos h

/-- Evaluation of the Rust float remainder on a nonnegative dividend lying in
the k-th period. -/
lemma fRem_spec (a b c : ℚ) (k : ℤ) (hk : 0 ≤ k) (hb : 0 < b)
    (h1 : (k : ℚ) * b ≤ a) (h2 : a < ((k : ℚ) + 1) * b) (hc : c = a - (k : ℚ) * b) :
    fRem a b = c := by
  have hkb : (0 : ℚ) ≤ (k : ℚ) * b :=
    mul_nonneg (by exact_mod_cast hk) hb.le
  have ha : 0 ≤ a / b := div_nonneg (le_trans hkb h1) hb.le
  have hfl : ⌊a / b⌋ = k := by
    rw [Int.floor_eq_iff]
    constructor
    · rw [le_div_iff₀ hb]
      exact h1
    · rw [div_lt_iff₀ hb]
      linarith
  rw [fRem, ratTrunc_eq_floor ha, hfl, hc]
  ring

/-! ### C1: classification of rixels into directions -/

/-- C1 (amended): `rixel_to_direction` classifies every rixel strictly inside
`(0, L)` as North, every rixel in `[L, 2L)` as East, every rixel in `[2L, 3L)`
as South and every rixel in `[3L, 4L)` as West, and it fails with the
`OutOfBounds` error exactly when `rixel ≥ 4L`; a rixel `≤ 0` (including `0`
itself and every negative rixel) does not fail but is classified as East,
because the lower-bound test guards only the North branch and the East branch
tests only `rixel < 2L`. -/
theorem rixel_to_direction_spec (rixel : ℚ) :
    (0 < rixel ∧ rixel < FIELD_EDGE_LENGTH →
      rixel_to_direction rixel = .ok .North) ∧
    (rixel ≤ 0 ∨ FIELD_EDGE_LENGTH ≤ rixel ∧ rixel < FIELD_EDGE_LENGTH * 2 →
      rixel_to_direction rixel = .ok .East) ∧
    (FIELD_EDGE_LENGTH * 2 ≤ rixel ∧ rixel < FIELD_EDGE_LENGTH * 3 →
      rixel_to_direction rixel = .ok .South) ∧
    (FIELD_EDGE_LENGTH * 3 ≤ rixel ∧ rixel < FIELD_EDGE_LENGTH * 4 →
      rixel_to_direction rixel = .ok .West) ∧
    (FIELD_EDGE_LENGTH * 4 ≤ rixel →
      rixel_to_direction rixel = .error (.ObstacleRixelOutOfBounds rixel)) ∧
    ((∃ e, rixel_to_direction rixel = .error e) ↔ FIELD_EDGE_LENGTH * 4 ≤ rixel) := by
  simp only [rixel_to_direction, FIELD_EDGE_LENGTH]
  refine ⟨?_, ?_, ?_, ?_, ?_, ?_⟩
  · rintro ⟨h1, h2⟩
    rw [if_pos ⟨h1, h2⟩]
  · intro h
    rw [if_neg, if_pos]
    · rcases h with h | ⟨h1, h2⟩ <;> linarith
    · rintro ⟨h1, h2⟩
      rcases h with h | ⟨h3, h4⟩ <;> linarith
  · rintro ⟨h1, h2⟩
    rw [if_neg, if_neg, if_pos h2]
    · intro h
      linarith
    · rintro ⟨h3, h4⟩
      linarith
  · rintro ⟨h1, h2⟩
    rw [if_neg, if_neg, if_neg, if_pos h2]
    · intro h
      linarith
    · intro h
      linarith
    · rintro ⟨h3, h4⟩
      linarith
  · intro h
    rw [if_neg, if_neg, if_neg, if_neg]
    · intro h2
      linarith
    · intro h2
      linarith
    · intro h2
      linarith
    · rintro ⟨h3, h4⟩
      linarith
  · constructor
    · rintro ⟨e, he⟩
      by_contra hlt
      push_neg at hlt
      split_ifs at he with h1 h2 h3
    · intro h
      refine ⟨.ObstacleRixelOutOfBounds rixel, ?_⟩
      rw [if_neg, if_neg, if_neg, if_neg]
      · intro h2
        linarith
      · intro h2
        linarith
      · intro h2
        linarith
      · rintro ⟨h3, h4⟩
        linarith

/-- C1 counterexample: the claim asserts that rixel exactly `0` and every
negative rixel fail with `OutOfBounds`; in the code both fall through the
North guard into the `rixel < 2L` branch and come back classified as East. -/
theorem rixel_to_direction_zero_not_error :
    rixel_to_direction 0 = .ok .East ∧ rixel_to_direction (-1) = .ok .East := by
  constructor <;> norm_num [rixel_to_direction, FIELD_EDGE_LENGTH]

/-! ### C5: the opposite mapping is an involution away from corners -/

lemma opposite_eq_oppositeRixel (o : Obstacle) : o.opposite = oppositeRixel o.rixel :=
  rfl

/-- Closed form of the opposite mapping on the k-th side, with `j` the number
of times the final `mod 4L` wraps. -/
lemma oppositeRixel_eval (r : ℚ) (k j : ℤ) (hk0 : 0 ≤ k)
    (hlo : (k : ℚ) * 500 ≤ r) (hhi : r < ((k : ℚ) + 1) * 500)
    (hj0 : 0 ≤ j)
    (hjlo : (j : ℚ) * 2000 ≤ (2 * (k : ℚ) + 3) * 500 - r)
    (hjhi : (2 * (k : ℚ) + 3) * 500 - r < ((j : ℚ) + 1) * 2000) :
    oppositeRixel r = (2 * (k : ℚ) + 3) * 500 - r - (j : ℚ) * 2000 := by
  simp only [oppositeRixel, FIELD_EDGE_LENGTH]
  have h1 : fRem r 500 = r - (k : ℚ) * 500 :=
    fRem_spec _ _ _ k hk0 (by norm_num) hlo hhi rfl
  rw [h1]
  apply fRem_spec _ _ _ j hj0 (by norm_num)
  · linarith
  · linarith
  · ring

/-- C5 (amended): for every valid rixel `r ∈ [0, 4L)` that is not on a corner
(`r mod L ≠ 0`), applying the opposite mapping twice returns the original
coordinate exactly; on a corner (a multiple of `L`, e.g. `r = 0`) the double
application does not return to `r`. -/
theorem opposite_opposite_eq (o : Obstacle) (h0 : 0 ≤ o.rixel)
    (h4 : o.rixel < FIELD_EDGE_LENGTH * 4)
    (hcorner : fRem o.rixel FIELD_EDGE_LENGTH ≠ 0) :
    ({ o with rixel := o.opposite } : Obstacle).opposite = o.rixel := by
  have h4n : o.rixel < 2000 := by
    simp only [FIELD_EDGE_LENGTH] at h4
    linarith
  have hgoal : ({ o with rixel := o.opposite } : Obstacle).opposite
      = oppositeRixel (oppositeRixel o.rixel) := rfl
  rw [hgoal]
  set r := o.rixel with hr
  have hk0 : 0 ≤ ⌊r / 500⌋ := Int.floor_nonneg.2 (div_nonneg h0 (by norm_num))
  have hklo : (⌊r / 500⌋ : ℚ) * 500 ≤ r := by
    have h := Int.floor_le (r / 500)
    exact (le_div_iff₀ (by norm_num : (0:ℚ) < 500)).mp h
  have hkhi : r < ((⌊r / 500⌋ : ℚ) + 1) * 500 := by
    have h := Int.lt_floor_add_one (r / 500)
    exact (div_lt_iff₀ (by norm_num : (0:ℚ) < 500)).mp h
  have hfr : fRem r FIELD_EDGE_LENGTH = r - (⌊r / 500⌋ : ℚ) * 500 := by
    simp only [FIELD_EDGE_LENGTH]
    exact fRem_spec _ _ _ _ hk0 (by norm_num) hklo hkhi rfl
  have hstrict : (⌊r / 500⌋ : ℚ) * 500 < r := by
    rcases lt_or_eq_of_le hklo with h | h
    · exact h
    · exact absurd (show fRem r FIELD_EDGE_LENGTH = 0 by rw [hfr]; linarith) hcorner
  have hk3 : ⌊r / 500⌋ ≤ 3 := by
    by_contra hgt
    push_neg at hgt
    have : (4 : ℚ) ≤ (⌊r / 500⌋ : ℚ) := by exact_mod_cast hgt
    linarith
  set k := ⌊r / 500⌋
  clear_value k
  interval_cases k <;> push_cast at hklo hkhi hstrict
  · rw [oppositeRixel_eval r 0 0 (by norm_num) (by push_cast; linarith)
      (by push_cast; linarith) (by norm_num) (by push_cast; linarith)
      (by push_cast; linarith)]
    rw [oppositeRixel_eval _ 2 1 (by norm_num) (by push_cast; linarith)
      (by push_cast; linarith) (by norm_num) (by push_cast; linarith)
      (by push_cast; linarith)]
    ring
  · rw [oppositeRixel_eval r 1 0 (by norm_num) (by push_cast; linarith)
      (by push_cast; linarith) (by norm_num) (by push_cast; linarith)
      (by push_cast; linarith)]
    rw [oppositeRixel_eval _ 3 1 (by norm_num) (by push_cast; linarith)
      (by push_cast; linarith) (by norm_num) (by push_cast; linarith)
      (by push_cast; linarith)]
    ring
  · rw [oppositeRixel_eval r 2 1 (by norm_num) (by push_cast; linarith)
      (by push_cast; linarith) (by norm_num) (by push_cast; linarith)
      (by push_cast; linarith)]
    rw [oppositeRixel_eval _ 0 0 (by norm_num) (by push_cast; linarith)
      (by push_cast; linarith) (by norm_num) (by push_cast; linarith)
      (by push_cast; linarith)]
    ring
  · rw [oppositeRixel_eval r 3 1 (by norm_num) (by push_cast; linarith)
      (by push_cast; linarith) (by norm_num) (by push_cast; linarith)
      (by push_cast; linarith)]
    rw [oppositeRixel_eval _ 1 0 (by norm_num) (by push_cast; linarith)
      (by push_cast; linarith) (by norm_num) (by push_cast; linarith)
      (by push_cast; linarith)]
    ring

/-- C5 witness: double opposite at the concrete valid rixel 250. -/
theorem opposite_opposite_eq_witness :
    (0 : ℚ) ≤ 250 ∧ (250 : ℚ) < FIELD_EDGE_LENGTH * 4 ∧
    fRem 250 FIELD_EDGE_LENGTH ≠ 0 ∧
    (let o : Obstacle :=
      { rixel := 250, speed := 3, width := 10, length := 300, lifetime := 0 };
     ({ o with rixel := o.opposite } : Obstacle).opposite = o.rixel) :=
  ⟨by norm_num, by norm_num [FIELD_EDGE_LENGTH],
   by norm_num [fRem, ratTrunc, FIELD_EDGE_LENGTH],
   opposite_opposite_eq _ (by norm_num) (by norm_num [FIELD_EDGE_LENGTH])
     (by norm_num [fRem, ratTrunc, FIELD_EDGE_LENGTH])⟩

/-- C5 counterexample: the claim quantifies over every valid rixel in
`[0, 4L)`; at the corner rixel `0` the double opposite returns `1000 = 2L`,
which differs from `0` and is not congruent to it modulo `4L`. -/
theorem opposite_opposite_counterexample :
    (let o : Obstacle :=
      { rixel := 0, speed := 3, width := 10, length := 300, lifetime := 0 };
     ({ o with rixel := o.opposite } : Obstacle).opposite = 1000) ∧
    (∀ n : ℤ, (1000 : ℚ) ≠ 0 + (n : ℚ) * (FIELD_EDGE_LENGTH * 4)) := by
  constructor
  · norm_num [Obstacle.opposite, fRem, ratTrunc, FIELD_EDGE_LENGTH]
  · intro n hn
    rw [FIELD_EDGE_LENGTH] at hn
    have h2 : ((2 * n : ℤ) : ℚ) = ((1 : ℤ) : ℚ) := by push_cast; linarith
    have h3 : (2 * n : ℤ) = 1 := by exact_mod_cast h2
    omega

/-! ### C8: despawn removes timed-out obstacles and awards the bonus -/

lemma countP_not_add_filter_length {α : Type} (p : α → Bool) (l : List α) :
    l.countP (fun a => !(p a)) + (l.filter p).length = l.length := by
  induction l with
  | nil => simp
  | cons hd tl ih =>
    by_cases h : p hd <;>
      simp [List.countP_cons, List.filter_cons, h, ← ih] <;> omega

/-- C8 (amended): `update_despawn_obstacles` removes exactly those obstacles
whose lifetime has reached (is greater than or equal to, not strictly greater
than) `total_lifetime() + L / OBSTACLE_WARNING_MOVE_SPEED +
OBSTACLE_HIDE_DELAY`, increases the score by exactly 100 per removed
obstacle, and leaves every retained obstacle (and the rest of the player)
unchanged; a state none of whose obstacles has reached the threshold is left
entirely unchanged. -/
theorem update_despawn_obstacles_spec (s : GameState) :
    (s.update_despawn_obstacles).obstacles = s.obstacles.filter despawnKeep ∧
    (∀ ob : Obstacle, despawnKeep ob = false ↔
      ob.total_lifetime + FIELD_EDGE_LENGTH / OBSTACLE_WARNING_MOVE_SPEED
        + (OBSTACLE_HIDE_DELAY : ℚ) ≤ ob.lifetime) ∧
    (s.update_despawn_obstacles).player.score =
      s.player.score
        + 100 * (s.obstacles.length - (s.update_despawn_obstacles).obstacles.length) ∧
    (s.update_despawn_obstacles).player.rect = s.player.rect ∧
    (s.update_despawn_obstacles).player.color = s.player.color ∧
    (s.update_despawn_obstacles).reset_countdown = s.reset_countdown ∧
    ((∀ ob ∈ s.obstacles, despawnKeep ob = true) →
      s.update_despawn_obstacles = s) := by
  refine ⟨rfl, ?_, ?_, rfl, rfl, rfl, ?_⟩
  · intro ob
    simp only [despawnKeep, decide_eq_false_iff_not, not_lt]
  · have h := countP_not_add_filter_length despawnKeep s.obstacles
    simp only [GameState.update_despawn_obstacles]
    have hle : (s.obstacles.filter despawnKeep).length ≤ s.obstacles.length :=
      s.obstacles.length_filter_le despawnKeep
    omega
  · intro hall
    have hfilter : s.obstacles.filter despawnKeep = s.obstacles :=
      List.filter_eq_self.mpr hall
    have hcount : s.obstacles.countP (fun ob => !(despawnKeep ob)) = 0 := by
      have h := countP_not_add_filter_length despawnKeep s.obstacles
      rw [hfilter] at h
      omega
    simp [GameState.update_despawn_obstacles, hfilter, hcount]

/-- C8 witness: a state with one live obstacle below the threshold is left
unchanged by the despawn step. -/
theorem update_despawn_obstacles_spec_witness :
    (let s : GameState :=
      { obstacles := [{ rixel := 250, speed := 3, width := 10, length := 300,
                        lifetime := 40 }]
        player := Player.new, reset_countdown := none, is_running := true };
     (∀ ob ∈ s.obstacles, despawnKeep ob = true) ∧
      s.update_despawn_obstacles = s) := by
  constructor
  · intro ob hob
    simp only [List.mem_singleton] at hob
    subst hob
    norm_num [despawnKeep, Obstacle.total_lifetime, FIELD_EDGE_LENGTH,
      OBSTACLE_WARNING_MOVE_SPEED, OBSTACLE_WARNING_DRAW_TIME,
      OBSTACLE_HIDE_DELAY]
  · exact (update_despawn_obstacles_spec _).2.2.2.2.2.2 (by
      intro ob hob
      simp only [List.mem_singleton] at hob
      subst hob
      norm_num [despawnKeep, Obstacle.total_lifetime, FIELD_EDGE_LENGTH,
        OBSTACLE_WARNING_MOVE_SPEED, OBSTACLE_WARNING_DRAW_TIME,
        OBSTACLE_HIDE_DELAY])

/-- C8 counterexample: an obstacle whose lifetime equals the threshold
`920/3` exactly does not exceed it, yet the code removes it and awards the
100-point bonus, because `Vec::retain` keeps only lifetimes strictly below
the threshold. -/
theorem despawn_boundary_counterexample :
    (let ob : Obstacle :=
      { rixel := 250, speed := 3, width := 10, length := 300, lifetime := 920/3 };
     let s : GameState :=
      { obstacles := [ob], player := Player.new, reset_countdown := none,
        is_running := true };
     ¬ (ob.lifetime > ob.total_lifetime
          + FIELD_EDGE_LENGTH / OBSTACLE_WARNING_MOVE_SPEED
          + (OBSTACLE_HIDE_DELAY : ℚ)) ∧
      (s.update_despawn_obstacles).obstacles = [] ∧
      (s.update_despawn_obstacles).player.score = 100) := by
  refine ⟨?_, ?_, ?_⟩
  · norm_num [Obstacle.total_lifetime, FIELD_EDGE_LENGTH,
      OBSTACLE_WARNING_MOVE_SPEED, OBSTACLE_WARNING_DRAW_TIME,
      OBSTACLE_HIDE_DELAY]
  · simp only [GameState.update_despawn_obstacles, List.filter]
    norm_num [despawnKeep, Obstacle.total_lifetime, FIELD_EDGE_LENGTH,
      OBSTACLE_WARNING_MOVE_SPEED, OBSTACLE_WARNING_DRAW_TIME,
      OBSTACLE_HIDE_DELAY]
  · simp only [GameState.update_despawn_obstacles]
    norm_num [despawnKeep, List.countP, List.countP.go, Obstacle.total_lifetime,
      FIELD_EDGE_LENGTH, OBSTACLE_WARNING_MOVE_SPEED,
      OBSTACLE_WARNING_DRAW_TIME, OBSTACLE_HIDE_DELAY, Player.new]

/-! ### C6: spawned obstacles never hit the OutOfBounds error -/

/-- `positioning_to_rectangle` succeeds for every rixel below `4L`: the
error is produced only by the final else of `rixel_to_direction`. -/
lemma positioning_to_rectangle_isOk (rixel distance length width : ℚ)
    (h : rixel < FIELD_EDGE_LENGTH * 4) :
    (positioning_to_rectangle rixel distance length width).isOk = true := by
  simp only [positioning_to_rectangle, rixel_to_direction]
  split_ifs with h1 h2 h3
  · rfl
  · rfl
  · rfl
  · rfl

/-- C6: every obstacle produced by `Obstacle::spawn` under any random
outcome in range (`side ∈ {0,1,2,3}`, `width ∈ [6,14)`,
`off ∈ [width/2, L - width/2)`) has its rixel strictly inside `(0, 4L)`,
never on a corner, and `Obstacle::rectangle` never encounters the
`OutOfBounds` error for any lifetime value `t`, so the `unwrap` inside
`rectangle()` cannot panic. -/
theorem spawned_obstacle_rectangle_ok (side : ℕ) (width off t : ℚ)
    (hside : side < 4) (hw1 : 6 ≤ width) (hw2 : width < 14)
    (ho1 : width / 2 ≤ off) (ho2 : off < FIELD_EDGE_LENGTH - width / 2) :
    0 < (Obstacle.spawn side width off).rixel ∧
    (Obstacle.spawn side width off).rixel < FIELD_EDGE_LENGTH * 4 ∧
    fRem (Obstacle.spawn side width off).rixel FIELD_EDGE_LENGTH ≠ 0 ∧
    ({ Obstacle.spawn side width off with lifetime := t } : Obstacle).rectangleE.isOk
      = true := by
  simp only [Obstacle.spawn, FIELD_EDGE_LENGTH] at *
  have hs3 : (side : ℚ) ≤ 3 := by
    have : side ≤ 3 := by omega
    exact_mod_cast this
  have hs0 : (0 : ℚ) ≤ (side : ℚ) := by positivity
  have hoff0 : 0 < off := by linarith
  have hoff500 : off < 500 := by linarith
  have h0 : 0 < 500 * (side : ℚ) + off := by linarith
  have h4 : 500 * (side : ℚ) + off < 500 * 4 := by linarith
  refine ⟨h0, h4, ?_, ?_⟩
  · have hfr : fRem (500 * (side : ℚ) + off) 500 = off := by
      apply fRem_spec _ _ _ (side : ℤ) (by positivity) (by norm_num)
      · push_cast
        linarith
      · push_cast
        linarith
      · push_cast
        ring
    rw [hfr]
    linarith
  · apply positioning_to_rectangle_isOk
    simp only [FIELD_EDGE_LENGTH]
    exact h4

/-- C6 witness: the spawn outcome side 2, width 10, offset 100, checked at
lifetime 7. -/
theorem spawned_obstacle_rectangle_ok_witness :
    (2 : ℕ) < 4 ∧ (6 : ℚ) ≤ 10 ∧ (10 : ℚ) < 14 ∧ (10 : ℚ) / 2 ≤ 100 ∧
    (100 : ℚ) < FIELD_EDGE_LENGTH - 10 / 2 ∧
    (0 < (Obstacle.spawn 2 10 100).rixel ∧
     (Obstacle.spawn 2 10 100).rixel < FIELD_EDGE_LENGTH * 4 ∧
     fRem (Obstacle.spawn 2 10 100).rixel FIELD_EDGE_LENGTH ≠ 0 ∧
     ({ Obstacle.spawn 2 10 100 with lifetime := (7 : ℚ) } : Obstacle).rectangleE.isOk
       = true) :=
  ⟨by norm_num, by norm_num, by norm_num, by norm_num,
   by norm_num [FIELD_EDGE_LENGTH],
   spawned_obstacle_rectangle_ok 2 10 100 7 (by norm_num) (by norm_num)
     (by norm_num) (by norm_num) (by norm_num [FIELD_EDGE_LENGTH])⟩

/-! ### C4: positioning_to_rectangle moves the leading edge across the field -/

/-- C4: for every rixel strictly inside the k-th side interval and every
positive length and width, `positioning_to_rectangle` at `distance = 0`
yields a rectangle whose leading edge lies exactly on that side's perimeter
edge, at `distance = L` one whose leading edge lies exactly on the opposite
perimeter edge, and both rectangles have dimensions `(width, length)` for
North and South and `(length, width)` for East and West. -/
theorem positioning_to_rectangle_leading_edge (k : ℕ) (rixel length width : ℚ)
    (hk : k < 4) (hlo : (k : ℚ) * FIELD_EDGE_LENGTH < rixel)
    (hhi : rixel < ((k : ℚ) + 1) * FIELD_EDGE_LENGTH)
    (hlen : 0 < length) (hwid : 0 < width) :
    ∃ r0 rL : Rect,
      positioning_to_rectangle rixel 0 length width = .ok r0 ∧
      positioning_to_rectangle rixel FIELD_EDGE_LENGTH length width = .ok rL ∧
      leadingEdge (sideOfIndex k) r0 = perimeterEdge (sideOfIndex k) ∧
      leadingEdge (sideOfIndex k) rL = oppositeEdge (sideOfIndex k) ∧
      (r0.w, r0.h) = rectDims (sideOfIndex k) length width ∧
      (rL.w, rL.h) = rectDims (sideOfIndex k) length width := by
  simp only [FIELD_EDGE_LENGTH] at hlo hhi
  interval_cases k <;> push_cast at hlo hhi <;>
    [refine ⟨_, _, ?_, ?_, ?_, ?_, ?_, ?_⟩;
     refine ⟨_, _, ?_, ?_, ?_, ?_, ?_, ?_⟩;
     refine ⟨_, _, ?_, ?_, ?_, ?_, ?_, ?_⟩;
     refine ⟨_, _, ?_, ?_, ?_, ?_, ?_, ?_⟩] <;>
    simp only [positioning_to_rectangle, rixel_to_direction, FIELD_EDGE_LENGTH] <;>
    split_ifs <;>
    first
      | rfl
      | (exfalso; simp_all; linarith)
      | (simp only [sideOfIndex, leadingEdge, perimeterEdge, oppositeEdge,
          rectDims, FIELD_EDGE_LENGTH]; ring_nf)
  all_goals simp_all

/-- C4 witness: side North (k = 0), rixel 250, length 300, width 10. -/
theorem positioning_to_rectangle_leading_edge_witness :
    (0 : ℕ) < 4 ∧ ((0 : ℕ) : ℚ) * FIELD_EDGE_LENGTH < 250 ∧
    (250 : ℚ) < (((0 : ℕ) : ℚ) + 1) * FIELD_EDGE_LENGTH ∧ (0 : ℚ) < 300 ∧
    (0 : ℚ) < 10 ∧
    (∃ r0 rL : Rect,
      positioning_to_rectangle 250 0 300 10 = .ok r0 ∧
      positioning_to_rectangle 250 FIELD_EDGE_LENGTH 300 10 = .ok rL ∧
      leadingEdge (sideOfIndex 0) r0 = perimeterEdge (sideOfIndex 0) ∧
      leadingEdge (sideOfIndex 0) rL = oppositeEdge (sideOfIndex 0) ∧
      (r0.w, r0.h) = rectDims (sideOfIndex 0) 300 10 ∧
      (rL.w, rL.h) = rectDims (sideOfIndex 0) 300 10) :=
  ⟨by norm_num, by norm_num [FIELD_EDGE_LENGTH], by norm_num [FIELD_EDGE_LENGTH],
   by norm_num, by norm_num,
   positioning_to_rectangle_leading_edge 0 250 300 10 (by norm_num)
     (by norm_num [FIELD_EDGE_LENGTH]) (by norm_num [FIELD_EDGE_LENGTH])
     (by norm_num) (by norm_num)⟩

/-! ### C3: the visible length is piecewise linear and continuous -/

/-- Closed form: for an obstacle with positive speed and nominal length in
`[0, L]`, the visible length is a clamped min/max of linear functions of the
lifetime. -/
lemma visLenAt_closed_form (o : Obstacle) (hs : 0 < o.speed)
    (h0 : 0 ≤ o.length) (hL : o.length ≤ FIELD_EDGE_LENGTH) :
    visLenAt o = fun t =>
      max 0 (min (min (t * o.speed) o.length)
        (FIELD_EDGE_LENGTH + o.length - t * o.speed)) := by
  have hL500 : o.length ≤ 500 := by
    simpa [FIELD_EDGE_LENGTH] using hL
  funext t
  simp only [visLenAt, Obstacle.visibleLength, Obstacle.total_lifetime,
    FIELD_EDGE_LENGTH]
  split_ifs with h1 h2 h3
  · rcases h1 with h | h
    · have hts : t * o.speed < 0 := mul_neg_of_neg_of_pos h hs
      refine (max_eq_left ?_).symm
      exact le_trans (le_trans (min_le_left _ _) (min_le_left _ _)) hts.le
    · have hts : 500 + o.length < t * o.speed := by
        rw [gt_iff_lt, div_lt_iff₀ hs] at h
        linarith
      refine (max_eq_left ?_).symm
      refine le_trans (min_le_right _ _) ?_
      linarith
  · push_neg at h1
    obtain ⟨ht0, httot⟩ := h1
    have hts0 : 0 ≤ t * o.speed := mul_nonneg ht0 hs.le
    rw [min_eq_left h2.le, min_eq_left (by linarith), max_eq_right hts0]
  · push_neg at h1 h2
    obtain ⟨ht0, httot⟩ := h1
    have htsle : t * o.speed ≤ 500 + o.length := by
      rw [le_div_iff₀ hs] at httot
      linarith
    rw [min_eq_right h2, min_eq_right (by linarith), max_eq_right (by linarith)]
    ring
  · push_neg at h1 h2 h3
    obtain ⟨ht0, httot⟩ := h1
    rw [min_eq_right h2, min_eq_left (by linarith), max_eq_right h0]

/-- C3: for every obstacle with positive speed whose nominal length lies in
`[0, L]` (the spawned obstacles have speed 3 and length 300), the visible
length used by `Obstacle::rectangle` is the piecewise function of the
lifetime given by the code (0 outside `[0, total_lifetime]`, growing as
`lifetime * speed`, pinned at the nominal length on the plateau, shrinking
as `length - (lifetime * speed - L)` once `lifetime * speed` exceeds `L`),
it is 0 at lifetime 0 and at `total_lifetime`, and it is a continuous
function of the lifetime, with no jump at any phase boundary. -/
theorem visibleLength_piecewise_continuous (o : Obstacle) (hs : 0 < o.speed)
    (h0 : 0 ≤ o.length) (hL : o.length ≤ FIELD_EDGE_LENGTH) :
    o.rectangleE
      = positioning_to_rectangle o.rixel o.travelDistance o.visibleLength o.width ∧
    (∀ t : ℚ, t < 0 ∨ o.total_lifetime < t → visLenAt o t = 0) ∧
    (∀ t : ℚ, 0 ≤ t → t ≤ o.total_lifetime → t * o.speed < o.length →
      visLenAt o t = t * o.speed) ∧
    (∀ t : ℚ, o.length ≤ t * o.speed → t * o.speed ≤ FIELD_EDGE_LENGTH →
      visLenAt o t = o.length) ∧
    (∀ t : ℚ, FIELD_EDGE_LENGTH < t * o.speed → t ≤ o.total_lifetime →
      visLenAt o t = o.length - (t * o.speed - FIELD_EDGE_LENGTH)) ∧
    visLenAt o 0 = 0 ∧
    visLenAt o o.total_lifetime = 0 ∧
    Continuous (visLenAt o) := by
  have hF : (0 : ℚ) < FIELD_EDGE_LENGTH := by rw [FIELD_EDGE_LENGTH]; norm_num
  have hform := visLenAt_closed_form o hs h0 hL
  have htotmul : o.total_lifetime * o.speed = FIELD_EDGE_LENGTH + o.length := by
    rw [Obstacle.total_lifetime]
    exact div_mul_cancel₀ _ hs.ne'
  refine ⟨rfl, ?_, ?_, ?_, ?_, ?_, ?_, ?_⟩
  · intro t ht
    simp only [hform]
    rcases ht with h | h
    · have hts : t * o.speed < 0 := mul_neg_of_neg_of_pos h hs
      exact max_eq_left
        (le_trans (le_trans (min_le_left _ _) (min_le_left _ _)) hts.le)
    · have hts : FIELD_EDGE_LENGTH + o.length < t * o.speed := by
        rw [Obstacle.total_lifetime, div_lt_iff₀ hs] at h
        linarith
      exact max_eq_left (le_trans (min_le_right _ _) (by linarith))
  · intro t ht0 httot hts
    simp only [hform]
    have hts0 : 0 ≤ t * o.speed := mul_nonneg ht0 hs.le
    rw [min_eq_left hts.le, min_eq_left (by linarith), max_eq_right hts0]
  · intro t htlen htsL
    have hts0 : 0 ≤ t * o.speed := le_trans h0 htlen
    simp only [hform]
    rw [min_eq_right htlen, min_eq_left (by linarith), max_eq_right h0]
  · intro t htsL httot
    have htsle : t * o.speed ≤ FIELD_EDGE_LENGTH + o.length := by
      rw [Obstacle.total_lifetime, le_div_iff₀ hs] at httot
      linarith
    simp only [hform]
    rw [min_eq_right (show o.length ≤ t * o.speed by linarith),
      min_eq_right (show FIELD_EDGE_LENGTH + o.length - t * o.speed ≤ o.length by
        linarith),
      max_eq_right (by linarith)]
    ring
  · simp only [hform, zero_mul, sub_zero]
    rw [min_eq_left h0, min_eq_left (by linarith), max_eq_right le_rfl]
  · simp only [hform]
    rw [htotmul, sub_self, min_eq_right (le_min (by linarith) h0)]
    exact max_self 0
  · rw [hform]
    refine Continuous.max continuous_const ?_
    refine Continuous.min (Continuous.min ?_ continuous_const) ?_
    · exact continuous_id.mul continuous_const
    · exact Continuous.sub continuous_const (continuous_id.mul continuous_const)

/-- C3 witness: the standard spawned obstacle with speed 3 and length 300. -/
theorem visibleLength_piecewise_continuous_witness :
    (let o : Obstacle :=
      { rixel := 250, speed := 3, width := 10, length := 300, lifetime := 0 };
     (0 : ℚ) < o.speed ∧ (0 : ℚ) ≤ o.length ∧ o.length ≤ FIELD_EDGE_LENGTH ∧
     (visLenAt o 0 = 0 ∧ visLenAt o o.total_lifetime = 0 ∧
      Continuous (visLenAt o))) := by
  refine ⟨by norm_num, by norm_num, by norm_num [FIELD_EDGE_LENGTH], ?_⟩
  have h := visibleLength_piecewise_continuous
    { rixel := 250, speed := 3, width := 10, length := 300, lifetime := 0 }
    (by norm_num) (by norm_num) (by norm_num [FIELD_EDGE_LENGTH])
  exact ⟨h.2.2.2.2.2.1, h.2.2.2.2.2.2.1, h.2.2.2.2.2.2.2⟩

/-! ### C2: the collision/scoring pass -/

/-- Characterisation of the collision loop: on success it advances every
lifetime by one, adds one point per collector hit, and ends with a fresh
countdown exactly when some obstacle hit the player's solid rectangle. -/
lemma collisionsLoop_spec (p : Player) :
    ∀ (obs : List Obstacle) (sc : ℕ) (cd : Option Countdown)
      (out : List Obstacle × ℕ × Option Countdown),
      collisionsLoop p obs sc cd = some out →
      out.1 = obs.map advanceOb ∧
      out.2.1 = sc + obs.countP (collectHit p) ∧
      out.2.2 = (if obs.any (solidHit p) then some (Countdown.new 2) else cd) := by
  intro obs
  induction obs with
  | nil =>
    intro sc cd out h
    simp only [collisionsLoop, Option.some.injEq] at h
    subst h
    simp
  | cons hd tl ih =>
    intro sc cd out h
    simp only [collisionsLoop] at h
    rcases hE : (advanceOb hd).rectangleE with e | r <;> rw [hE] at h
    · simp at h
    · by_cases hsolid : p.rect.overlaps r = true
      · simp only [hsolid, if_true, if_pos] at h
        rcases hloop : collisionsLoop p tl sc (some (Countdown.new 2))
          with _ | ⟨l, sc2, c2⟩ <;> rw [hloop] at h
        · simp at h
        · simp only [Option.some.injEq] at h
          subst h
          obtain ⟨h1, h2, h3⟩ := ih sc (some (Countdown.new 2)) (l, sc2, c2) hloop
          have h1e : l = List.map advanceOb tl := h1
          have h2e : sc2 = sc + List.countP (collectHit p) tl := h2
          have h3e : c2 = (if tl.any (solidHit p) then some (Countdown.new 2)
            else some (Countdown.new 2)) := h3
          have hch : collectHit p hd = false := by
            simp [collectHit, hE, hsolid]
          have hsh : solidHit p hd = true := by
            simp [solidHit, hE, hsolid]
          refine ⟨by simp [h1e], ?_, ?_⟩
          · simp only [List.countP_cons, hch]
            simp [h2e]
          · simp only [List.any_cons, hsh, Bool.true_or, if_true]
            rw [h3e]
            split_ifs <;> rfl
      · by_cases hcol : p.collector_rectangle.overlaps r = true
        · simp only [hsolid, hcol, if_false, if_true, Bool.false_eq_true] at h
          rcases hloop : collisionsLoop p tl (sc + 1) cd
            with _ | ⟨l, sc2, c2⟩ <;> rw [hloop] at h
          · simp at h
          · simp only [Option.some.injEq] at h
            subst h
            obtain ⟨h1, h2, h3⟩ := ih (sc + 1) cd (l, sc2, c2) hloop
            have h1e : l = List.map advanceOb tl := h1
            have h2e : sc2 = sc + 1 + List.countP (collectHit p) tl := h2
            have h3e : c2 = (if tl.any (solidHit p) then some (Countdown.new 2)
              else cd) := h3
            have hch : collectHit p hd = true := by
              simp [collectHit, hE, hsolid, hcol]
            have hsh : solidHit p hd = false := by
              simp [solidHit, hE, hsolid]
            refine ⟨by simp [h1e], ?_, ?_⟩
            · simp only [List.countP_cons, hch]
              simp [h2e]
              omega
            · simp only [List.any_cons, hsh, Bool.false_or]
              exact h3e
        · simp only [hsolid, hcol, if_false, Bool.false_eq_true] at h
          rcases hloop : collisionsLoop p tl sc cd
            with _ | ⟨l, sc2, c2⟩ <;> rw [hloop] at h
          · simp at h
          · simp only [Option.some.injEq] at h
            subst h
            obtain ⟨h1, h2, h3⟩ := ih sc cd (l, sc2, c2) hloop
            have h1e : l = List.map advanceOb tl := h1
            have h2e : sc2 = sc + List.countP (collectHit p) tl := h2
            have h3e : c2 = (if tl.any (solidHit p) then some (Countdown.new 2)
              else cd) := h3
            have hch : collectHit p hd = false := by
              simp [collectHit, hE, hsolid, hcol]
            have hsh : solidHit p hd = false := by
              simp [solidHit, hE, hsolid]
            refine ⟨by simp [h1e], ?_, ?_⟩
            · simp only [List.countP_cons, hch]
              simp [h2e]
            · simp only [List.any_cons, hsh, Bool.false_or]
              exact h3e

/-- C2: entered with no reset countdown, `update_check_collisions` advances
every obstacle's lifetime by exactly 1 and gives every obstacle its
collision/scoring check that same tick (the `is_none` guard is evaluated
once, before the loop, so obstacles after the one that started the countdown
are still processed): the score grows by one per obstacle whose collector
check fires, and the countdown ends set exactly when some obstacle overlaps
the player's solid rectangle.  Entered with a countdown already set, the
state is returned unchanged: no lifetime advances and the score is
unchanged. -/
theorem update_check_collisions_spec (s : GameState) :
    (∀ c : Countdown, s.reset_countdown = some c →
      s.update_check_collisions = some s) ∧
    (∀ s2 : GameState, s.reset_countdown = none →
      s.update_check_collisions = some s2 →
      s2.obstacles = s.obstacles.map advanceOb ∧
      s2.player.score = s.player.score + s.obstacles.countP (collectHit s.player) ∧
      s2.player.rect = s.player.rect ∧
      s2.player.color = s.player.color ∧
      s2.is_running = s.is_running ∧
      s2.reset_countdown =
        (if s.obstacles.any (solidHit s.player) then some (Countdown.new 2)
         else none)) := by
  constructor
  · intro c hc
    simp [GameState.update_check_collisions, hc]
  · intro s2 hnone h
    simp only [GameState.update_check_collisions, hnone, Option.isNone_none,
      if_true] at h
    rcases hloop : collisionsLoop s.player s.obstacles s.player.score none
      with _ | ⟨l, sc, c⟩ <;> rw [hloop] at h
    · simp at h
    · simp only [Option.some.injEq] at h
      obtain ⟨h1, h2, h3⟩ :=
        collisionsLoop_spec s.player s.obstacles s.player.score none (l, sc, c) hloop
      subst h
      simp only at h1 h2 h3
      exact ⟨h1, h2, rfl, rfl, rfl, h3⟩

/-- C2 witness: a one-obstacle state with no countdown; the obstacle is
advanced and neither check fires. -/
theorem update_check_collisions_spec_witness :
    (let ob : Obstacle :=
      { rixel := 250, speed := 3, width := 10, length := 300, lifetime := 5 };
     let s : GameState :=
      { obstacles := [ob], player := Player.new, reset_countdown := none,
        is_running := true };
     ∃ s2 : GameState, s.reset_countdown = none ∧
      s.update_check_collisions = some s2 ∧
      s2.obstacles = s.obstacles.map advanceOb ∧
      s2.player.score = s.player.score + s.obstacles.countP (collectHit s.player)) := by
  intro ob s
  have hEq : s.update_check_collisions
      = some { s with obstacles := [{ ob with lifetime := 6 }] } := by
    norm_num [s, ob, GameState.update_check_collisions, collisionsLoop,
      advanceOb, Obstacle.rectangleE, Obstacle.travelDistance,
      Obstacle.visibleLength, Obstacle.total_lifetime,
      positioning_to_rectangle, rixel_to_direction, rixels_to_next_corner,
      fRem, ratTrunc, FIELD_EDGE_LENGTH, Rect.overlaps, Player.new,
      Player.collector_rectangle, Rect.sizedWithCenter, Rect.centerX,
      Rect.centerY, COLLECTOR_EDGE_LENGTH]
  exact ⟨_, rfl, hEq, ((update_check_collisions_spec s).2 _ rfl hEq).1,
    ((update_check_collisions_spec s).2 _ rfl hEq).2.1⟩

/-! ### C7: the reset step and the countdown state machine -/

/-- C7: when `update_reset_game` runs with an elapsed countdown it clears
the obstacle collection, resets the player to its initial state (position
`(0,0)`, size 50 by 50, score 0, initial color) and clears the countdown,
all in the same tick; with a pending or absent countdown it changes nothing;
and across the modelled pipeline the countdown admits no other transition:
input handling, spawning and despawning never touch it, and the collision
pass either leaves it unchanged or starts a fresh one from `none` when some
obstacle overlaps the player. -/
theorem update_reset_game_spec :
    (∀ (s : GameState) (c : Countdown), s.reset_countdown = some c →
      c.is_done = true →
      s.update_reset_game
        = { s with obstacles := [], player := Player.new,
                   reset_countdown := none }) ∧
    Player.new
      = { rect := { x := 0, y := 0, w := 50, h := 50 }, score := 0,
          color := .red } ∧
    (∀ (s : GameState) (c : Countdown), s.reset_countdown = some c →
      c.is_done = false → s.update_reset_game = s) ∧
    (∀ s : GameState, s.reset_countdown = none → s.update_reset_game = s) ∧
    (∀ (kb : Keyboard) (s : GameState),
      (s.update_handle_input kb).reset_countdown = s.reset_countdown) ∧
    (∀ (doSpawn : Bool) (side : ℕ) (width off : ℚ) (s : GameState),
      (s.update_spawn_obstacles doSpawn side width off).reset_countdown
        = s.reset_countdown) ∧
    (∀ s : GameState,
      (s.update_despawn_obstacles).reset_countdown = s.reset_countdown) ∧
    (∀ (s s2 : GameState), s.update_check_collisions = some s2 →
      s2.reset_countdown = s.reset_countdown ∨
      (s.reset_countdown = none ∧
       s2.reset_countdown = some (Countdown.new 2) ∧
       s.obstacles.any (solidHit s.player) = true)) := by
  refine ⟨?_, rfl, ?_, ?_, ?_, ?_, ?_, ?_⟩
  · intro s c hc hdone
    simp [GameState.update_reset_game, hc, hdone]
  · intro s c hc hdone
    simp [GameState.update_reset_game, hc, hdone]
  · intro s hc
    simp [GameState.update_reset_game, hc]
  · intro kb s
    rfl
  · intro doSpawn side width off s
    simp only [GameState.update_spawn_obstacles]
    split_ifs <;> rfl
  · intro s
    rfl
  · intro s s2 h
    rcases hcd : s.reset_countdown with _ | c
    · simp only [GameState.update_check_collisions, hcd, Option.isNone_none,
        if_true] at h
      rcases hloop : collisionsLoop s.player s.obstacles s.player.score none
        with _ | ⟨l, sc, c2⟩ <;> rw [hloop] at h
      · simp at h
      · simp only [Option.some.injEq] at h
        obtain ⟨h1, h2, h3⟩ :=
          collisionsLoop_spec s.player s.obstacles s.player.score none
            (l, sc, c2) hloop
        have h3e : c2 = (if s.obstacles.any (solidHit s.player)
            then some (Countdown.new 2) else none) := h3
        subst h
        by_cases hany : s.obstacles.any (solidHit s.player) = true
        · right
          refine ⟨rfl, ?_, hany⟩
          simp only [h3e, hany, if_true]
        · left
          simp only [hcd]
          simp only [h3e, hany, if_false, Bool.false_eq_true]
    · simp only [GameState.update_check_collisions, hcd, Option.isNone_some,
        Bool.false_eq_true, if_false, Option.some.injEq] at h
      subst h
      left
      exact hcd

/-- C7 witness: a state whose countdown (2 seconds, 3 elapsed) is done is
reset to the initial player with no obstacles and no countdown. -/
theorem update_reset_game_spec_witness :
    (let s : GameState :=
      { obstacles :=
          [{ rixel := 250, speed := 3, width := 10, length := 300,
             lifetime := 40 }],
        player := { rect := { x := 30, y := 40, w := 50, h := 50 },
                    score := 17, color := .other },
        reset_countdown := some { elapsed := 3, duration := 2 },
        is_running := true };
     s.reset_countdown = some { elapsed := 3, duration := 2 } ∧
     Countdown.is_done { elapsed := 3, duration := 2 } = true ∧
     s.update_reset_game
       = { s with obstacles := [], player := Player.new,
                  reset_countdown := none }) := by
  refine ⟨rfl, by norm_num [Countdown.is_done], ?_⟩
  exact update_reset_game_spec.1 _ { elapsed := 3, duration := 2 } rfl
    (by norm_num [Countdown.is_done])

/-! ### C10: movement priority of the input handler -/

/-- C10: with no reset countdown active, `update_handle_input` moves the
player by at most one single-axis displacement, chosen by the fixed priority
left (H/Left) over down (J/Down) over up (K/Up) over right (L/Right) of the
else-if chain, so holding several movement keys moves in only the
highest-priority direction and diagonal movement is impossible; the
displacement magnitude is the slow-motion speed while LShift is held and the
base speed otherwise, and the result is then clamped into the field. -/
theorem update_handle_input_priority (kb : Keyboard) (s : GameState)
    (hn : s.reset_countdown = none) :
    ∃ dx dy : ℚ,
      (s.update_handle_input kb).player.rect
        = clampToField { s.player.rect with
                         x := s.player.rect.x + dx,
                         y := s.player.rect.y + dy } ∧
      (dx = 0 ∨ dy = 0) ∧
      (dx, dy)
        = (let ms := if kb.lshift then PLAYER_SPEED / PLAYER_SLOWMO_FACTOR
                     else PLAYER_SPEED;
           if kb.h || kb.left then (-ms, 0)
           else if kb.j || kb.down then (0, ms)
           else if kb.k || kb.up then (0, -ms)
           else if kb.l || kb.right then (ms, 0)
           else (0, 0)) := by
  simp only [GameState.update_handle_input, hn, Option.isNone_none, if_true]
  set ms := (if kb.lshift then PLAYER_SPEED / PLAYER_SLOWMO_FACTOR
             else PLAYER_SPEED : ℚ) with hms
  by_cases c1 : (kb.h || kb.left) = true
  · refine ⟨-ms, 0, ?_, Or.inr rfl, by simp [c1]⟩
    simp only [movedRect, c1, if_true]
    rw [sub_eq_add_neg, add_zero]
  · by_cases c2 : (kb.j || kb.down) = true
    · refine ⟨0, ms, ?_, Or.inl rfl, by simp [c1, c2]⟩
      simp only [movedRect, c1, c2, if_true, Bool.false_eq_true, if_false]
      norm_num
    · by_cases c3 : (kb.k || kb.up) = true
      · refine ⟨0, -ms, ?_, Or.inl rfl, by simp [c1, c2, c3]⟩
        simp only [movedRect, c1, c2, c3, if_true, Bool.false_eq_true, if_false]
        rw [sub_eq_add_neg, add_zero]
      · by_cases c4 : (kb.l || kb.right) = true
        · refine ⟨ms, 0, ?_, Or.inr rfl, by simp [c1, c2, c3, c4]⟩
          simp only [movedRect, c1, c2, c3, c4, if_true, Bool.false_eq_true,
            if_false]
          norm_num
        · refine ⟨0, 0, ?_, Or.inl rfl, by simp [c1, c2, c3, c4]⟩
          simp only [movedRect, c1, c2, c3, c4, Bool.false_eq_true, if_false]
          norm_num

/-- C10 witness: H and Down held together with no countdown; the theorem
applies and picks the single left displacement. -/
theorem update_handle_input_priority_witness :
    (let kb : Keyboard :=
      { h := true, left := false, j := true, down := true, k := false,
        up := false, l := true, right := false, lshift := false,
        escape := false };
     let s : GameState :=
      { obstacles := [], player := Player.new, reset_countdown := none,
        is_running := true };
     s.reset_countdown = none ∧
     ∃ dx dy : ℚ,
      (s.update_handle_input kb).player.rect
        = clampToField { s.player.rect with
                         x := s.player.rect.x + dx,
                         y := s.player.rect.y + dy } ∧
      (dx = 0 ∨ dy = 0) ∧
      (dx, dy)
        = (let ms := if kb.lshift then PLAYER_SPEED / PLAYER_SLOWMO_FACTOR
                     else PLAYER_SPEED;
           if kb.h || kb.left then (-ms, 0)
           else if kb.j || kb.down then (0, ms)
           else if kb.k || kb.up then (0, -ms)
           else if kb.l || kb.right then (ms, 0)
           else (0, 0))) := by
  exact ⟨rfl, update_handle_input_priority _ _ rfl⟩

/-! ### C9: the spawn interval formula -/

/-- The exact real value of the interval formula is antitone in the score. -/
lemma spawnIntervalReal_antitone {a b : ℕ} (hab : a ≤ b) :
    spawnIntervalReal b ≤ spawnIntervalReal a := by
  unfold spawnIntervalReal
  have hca : (100 : ℝ) ≤ ((max 100 a : ℕ) : ℝ) := by
    exact_mod_cast Nat.le_max_left 100 a
  have hle : ((max 100 a : ℕ) : ℝ) ≤ ((max 100 b : ℕ) : ℝ) := by
    exact_mod_cast max_le_max (le_refl 100) hab
  have hxa0 : (0 : ℝ) < ((max 100 a : ℕ) : ℝ) / 100 := by linarith
  have hpow2 : (((max 100 a : ℕ) : ℝ) / 100) ^ ((1:ℝ)/3)
      ≤ (((max 100 b : ℕ) : ℝ) / 100) ^ ((1:ℝ)/3) := by
    apply Real.rpow_le_rpow hxa0.le (by gcongr) (by norm_num)
  have hpos : (0 : ℝ) < (((max 100 a : ℕ) : ℝ) / 100) ^ ((1:ℝ)/3) :=
    Real.rpow_pos_of_pos hxa0 _
  have hdiv : ((SPAWN_RATE_FACTOR : ℚ) : ℝ)
        / (((max 100 b : ℕ) : ℝ) / 100) ^ ((1:ℝ)/3)
      ≤ ((SPAWN_RATE_FACTOR : ℚ) : ℝ)
        / (((max 100 a : ℕ) : ℝ) / 100) ^ ((1:ℝ)/3) := by
    have hF : (0 : ℝ) ≤ ((SPAWN_RATE_FACTOR : ℚ) : ℝ) := by
      norm_num [SPAWN_RATE_FACTOR]
    gcongr
  linarith

/-- The saturating float-to-u64 cast is monotone. -/
lemma f32ToU64_mono {x y : ℝ} (h : x ≤ y) : f32ToU64 x ≤ f32ToU64 y := by
  unfold f32ToU64
  split_ifs with hx hy hy2
  · exact le_refl 0
  · exact Nat.zero_le _
  · exact absurd (le_trans h hy2) hx
  · refine min_le_min ?_ le_rfl
    exact Int.toNat_le_toNat (Int.floor_mono h)

/-- The cast of a real strictly below a positive bound stays strictly
below it. -/
lemma f32ToU64_lt {v : ℝ} {n : ℕ} (hn : 0 < n) (h : v < n) : f32ToU64 v < n := by
  unfold f32ToU64
  split_ifs with hv
  · exact hn
  · refine lt_of_le_of_lt (min_le_left _ _) ?_
    have hfl : ⌊v⌋ < (n : ℤ) := by
      rw [Int.floor_lt]
      exact_mod_cast h
    omega

/-- The interval at the clamp score 100 is exactly 4800 milliseconds. -/
lemma obstacle_spawn_interval_100 : obstacle_spawn_interval 100 = 4800 := by
  unfold obstacle_spawn_interval spawnIntervalReal
  have h1 : ((max 100 100 : ℕ) : ℝ) / 100 = 1 := by norm_num
  rw [h1, Real.one_rpow]
  have h2 : (((SPAWN_RATE_FACTOR : ℚ) : ℝ) / 1 - ((SPAWN_RATE_SUBTRACT : ℚ) : ℝ))
      * 1000 = 4800 := by
    norm_num [SPAWN_RATE_FACTOR, SPAWN_RATE_SUBTRACT]
  rw [h2]
  unfold f32ToU64
  rw [if_neg (by norm_num)]
  have h3 : ⌊(4800 : ℝ)⌋ = 4800 := by
    have : ((4800 : ℤ) : ℝ) = (4800 : ℝ) := by norm_num
    rw [← this, Int.floor_intCast]
  rw [h3]
  norm_num
  decide

/-- The interval at score 10000 is strictly below 4800 milliseconds. -/
lemma obstacle_spawn_interval_10000 : obstacle_spawn_interval 10000 < 4800 := by
  unfold obstacle_spawn_interval
  apply f32ToU64_lt (by norm_num)
  unfold spawnIntervalReal
  have h1 : ((max 100 10000 : ℕ) : ℝ) / 100 = 100 := by norm_num
  rw [h1]
  have hgt : (1 : ℝ) < (100 : ℝ) ^ ((1:ℝ)/3) :=
    (Real.one_lt_rpow_iff_of_pos (by norm_num)).mpr
      (Or.inl ⟨by norm_num, by norm_num⟩)
  have hF : ((SPAWN_RATE_FACTOR : ℚ) : ℝ) = 6 := by
    norm_num [SPAWN_RATE_FACTOR]
  have hS : ((SPAWN_RATE_SUBTRACT : ℚ) : ℝ) = 6/5 := by
    norm_num [SPAWN_RATE_SUBTRACT]
  rw [hF, hS]
  have hdivlt : (6 : ℝ) / (100 : ℝ) ^ ((1:ℝ)/3) < 6 :=
    div_lt_self (by norm_num) hgt
  have hdivpos : (0 : ℝ) < (6 : ℝ) / (100 : ℝ) ^ ((1:ℝ)/3) :=
    div_pos (by norm_num) (lt_trans one_pos hgt)
  push_cast
  linarith

/-- C9: `obstacle_spawn_interval` clamps the score to `max 100 score`,
applies `(SPAWN_RATE_FACTOR / (score'/100)^(1/3) - SPAWN_RATE_SUBTRACT) * 1000`
milliseconds with a saturating `as u64` cast, is monotonically decreasing
(non-increasing) in the score, satisfies
`obstacle_spawn_interval 100 > obstacle_spawn_interval 10000`, and never
returns a negative duration for any score. -/
theorem obstacle_spawn_interval_spec :
    (∀ a b : ℕ, a ≤ b →
      obstacle_spawn_interval b ≤ obstacle_spawn_interval a) ∧
    obstacle_spawn_interval 10000 < obstacle_spawn_interval 100 ∧
    (∀ sc : ℕ, 0 ≤ obstacle_spawn_interval sc) := by
  refine ⟨?_, ?_, ?_⟩
  · intro a b hab
    exact f32ToU64_mono (spawnIntervalReal_antitone hab)
  · rw [obstacle_spawn_interval_100]
    exact obstacle_spawn_interval_10000
  · intro sc
    exact Nat.zero_le _

/-- C9 witness: monotonicity applied at the concrete pair 0 ≤ 5. -/
theorem obstacle_spawn_interval_spec_witness :
    (0 : ℕ) ≤ 5 ∧ obstacle_spawn_interval 5 ≤ obstacle_spawn_interval 0 :=
  ⟨by norm_num, obstacle_spawn_interval_spec.1 0 5 (by norm_num)⟩

end QsLearnBox
